import Mathlib

/-!
Verification of the competitive price-extraction pipeline:
shallow embedding of `src/lib/scraping/competitor-price-scraper.ts` and
`src/lib/scraping/browser.ts`, with theorems checking the specified
behaviour of extraction, aggregation, batch orchestration, navigation
retry and rate limiting.
-/

namespace NailSpa

/-- ASCII lower-casing of one character, as JavaScript `toLowerCase`
acts on the characters occurring here. -/
def lowerChar (c : Char) : Char :=
  if 'A' ≤ c ∧ c ≤ 'Z' then Char.ofNat (c.toNat + 32) else c

/-- JavaScript `toLowerCase` (ASCII range). -/
def jsToLower (s : String) : String :=
  ⟨s.data.map lowerChar⟩

/-- Whitespace characters matched by the JavaScript regex class `\s`
(the ones that occur in the texts handled here). -/
def isJsSpace (c : Char) : Bool :=
  c = ' ' || c = '\t' || c = '\n' || c = '\r'

/-- JavaScript `trim`: strip whitespace from both ends. -/
def jsTrim (s : String) : String :=
  ⟨((s.data.dropWhile isJsSpace).reverse.dropWhile isJsSpace).reverse⟩

/-- JavaScript `substring(0, n)` / `slice(0, n)` for `n ≥ 0`. -/
def strTake (s : String) (n : ℕ) : String :=
  ⟨s.data.take n⟩

/-- JavaScript `startsWith`. -/
def startsWithStr (s pre : String) : Bool :=
  pre.data.isPrefixOf s.data

/-- Split a character list at newlines (JavaScript `split("\n")`). -/
def splitLinesAux : List Char → List (List Char)
  | [] => [[]]
  | c :: rest =>
    match splitLinesAux rest with
    | [] => [[c]]
    | h :: t => if c = '\n' then [] :: h :: t else (c :: h) :: t

/-- JavaScript `split("\n")`. -/
def jsSplitNl (s : String) : List String :=
  (splitLinesAux s.data).map (fun l => ⟨l⟩)

/-- Boolean substring test mirroring JavaScript `hay.includes(needle)`. -/
def strContains (hay needle : String) : Bool :=
  hay.data.tails.any (fun suf => needle.data.isPrefixOf suf)

/-- Service categories distinguished by the scraper (`ServicePrice.serviceType`). -/
inductive ServiceType where
  | gel
  | pedicure
  | acrylic
  | other
deriving DecidableEq, Repr

/-- `SERVICE_KEYWORDS.gel` from competitor-price-scraper.ts. -/
def gelKeywords : List String :=
  ["gel manicure", "gel polish", "gel nails", "gel color", "shellac"]

/-- `SERVICE_KEYWORDS.pedicure` from competitor-price-scraper.ts. -/
def pedicureKeywords : List String :=
  ["pedicure", "spa pedicure", "deluxe pedicure", "classic pedicure", "basic pedicure"]

/-- `SERVICE_KEYWORDS.acrylic` from competitor-price-scraper.ts. -/
def acrylicKeywords : List String :=
  ["acrylic full set", "full set", "acrylic nails", "nail extensions", "acrylics", "acrylic set"]

/-- `EXCLUDE_KEYWORDS` from competitor-price-scraper.ts. -/
def EXCLUDE_KEYWORDS : List String :=
  ["removal", "repair", "fill", "refill", "add-on", "addon", "additional",
   "extra", "soak off", "change", "per nail", "each nail"]

/-- `PRICE_RANGES` from competitor-price-scraper.ts: plausible price range
per service type; `other` has no entry (in TS, indexing yields `undefined`). -/
def PRICE_RANGES : ServiceType → Option (ℚ × ℚ)
  | .gel => some (20, 90)
  | .pedicure => some (25, 140)
  | .acrylic => some (35, 200)
  | .other => none

/-- The `ServicePrice` record produced by extraction (interface imported from
price-extractor.ts; its fields are fixed by every construction site in
competitor-price-scraper.ts). -/
structure ServicePrice where
  serviceName : String
  serviceType : ServiceType
  price : ℚ
  confidence : ℚ
  source : String
deriving DecidableEq, Repr

/-- Numeric value of a digit string. -/
def natOfDigits (ds : List Char) : ℕ :=
  ds.foldl (fun acc c => 10 * acc + (c.toNat - Char.toNat '0')) 0

/-- All matches of the price regex `\$\s*(\d{2,3}(?:\.\d{2})?)` (global),
the pattern used verbatim inside `extractAllServices`' in-page evaluation.
A match is a dollar sign, optional whitespace, a greedy two-to-three digit
amount, and optionally a dot with two digits of cents.  Scanning resumes
after each match; since a consumed match contains no further dollar sign,
resuming at the character after the `$` finds the same matches. -/
def scanPricesAux : List Char → List ℚ
  | [] => []
  | c :: rest =>
    if c = '$' then
      let afterWs := rest.dropWhile isJsSpace
      let ds := afterWs.takeWhile Char.isDigit
      if 2 ≤ ds.length then
        let whole := ds.take 3
        let price : ℚ :=
          match afterWs.drop whole.length with
          | '.' :: d1 :: d2 :: _ =>
            if d1.isDigit && d2.isDigit then
              mkRat (natOfDigits whole * 100 + natOfDigits [d1, d2]) 100
            else (natOfDigits whole : ℚ)
          | _ => (natOfDigits whole : ℚ)
        price :: scanPricesAux rest
      else scanPricesAux rest
    else scanPricesAux rest

/-- Price tokens of a string, per the scraper's price regex. -/
def scanPrices (s : String) : List ℚ :=
  scanPricesAux s.data

/-- Modelled from the spec: `extractPrices` lives in price-extractor.ts,
which is not among the sources; the spec describes the price token as a
currency-prefixed two-to-three-digit amount with optional cents, the same
pattern the in-page evaluation of `extractAllServices` uses. -/
def extractPrices (s : String) : List ℚ :=
  scanPrices s

/-- Modelled from the spec: `detectServiceType` lives in price-extractor.ts,
which is not among the sources; the spec classifies a candidate into the
fixed service categories by keyword containment in the source text, using
the curated per-category keyword lists. -/
def detectServiceType (t : String) : ServiceType :=
  let lower := jsToLower t
  if gelKeywords.any (fun kw => strContains lower kw) then .gel
  else if pedicureKeywords.any (fun kw => strContains lower kw) then .pedicure
  else if acrylicKeywords.any (fun kw => strContains lower kw) then .acrylic
  else .other

/-- True when the lower-cased text contains one of `EXCLUDE_KEYWORDS`,
the skip test each extraction method applies first to its source text. -/
def excludeHit (t : String) : Bool :=
  EXCLUDE_KEYWORDS.any (fun kw => strContains (jsToLower t) kw)

/-- Range filter applied to the extracted prices: the TS conditional
`priceRange ? prices.filter(min..max) : prices.filter(20..250)`. -/
def validPricesFor (st : ServiceType) (prices : List ℚ) : List ℚ :=
  match PRICE_RANGES st with
  | some r => prices.filter (fun p => r.1 ≤ p && p ≤ r.2)
  | none => prices.filter (fun p => 20 ≤ p && p ≤ 250)

/-- Accumulator threaded through the three extraction methods: the service
list under construction plus the deduplication set `seen`.  The TS key is
the string `serviceType + "-" + price`, which is in bijection with the
pair, so the pair is stored. -/
structure ExtractState where
  services : List ServicePrice
  seen : List (ServiceType × ℚ)
deriving DecidableEq, Repr

/-- Shared tail of each extraction method, lines 379-403 / 436-460 /
477-507 of competitor-price-scraper.ts: extract prices, detect the type,
drop `other`, validate the range, deduplicate, and push a candidate with
the method's confidence weight and source tag. -/
def pushCandidate (ep : String → List ℚ) (dt : String → ServiceType)
    (conf : ℚ) (src : String) (acc : ExtractState) (text : String) : ExtractState :=
  let prices := ep text
  if prices.isEmpty then acc
  else
    let serviceType := dt text
    if serviceType = .other then acc
    else
      let validPrices := validPricesFor serviceType prices
      match validPrices with
      | [] => acc
      | v0 :: _ =>
        let key := (serviceType, v0)
        if acc.seen.contains key then acc
        else
          { services := acc.services ++
              [{ serviceName := jsTrim (strTake text 80), serviceType := serviceType,
                 price := v0, confidence := conf, source := src }],
            seen := acc.seen ++ [key] }

/-- METHOD 1 per-item step (lines 371-404): the in-page evaluation has
already filtered and trimmed the element texts; the step skips texts
containing an exclusion keyword and otherwise runs the shared tail with
confidence 0.8 and source "puppeteer-eval". -/
def method1Step (ep : String → List ℚ) (dt : String → ServiceType)
    (acc : ExtractState) (text : String) : ExtractState :=
  if excludeHit text then acc
  else pushCandidate ep dt (mkRat 4 5) "puppeteer-eval" acc text

/-- The filter the in-page evaluation of METHOD 1 applies to each rendered
element's text: length 5-300, at least one price-regex match, and a
service keyword. -/
def method1PageFilter (t : String) : Bool :=
  let lower := jsToLower t
  5 ≤ t.length && t.length ≤ 300 && !(scanPrices t).isEmpty &&
    (strContains lower "gel" || strContains lower "pedicure" ||
     strContains lower "acrylic" || strContains lower "manicure" ||
     strContains lower "nails")

/-- METHOD 2 per-element step (lines 426-461): trim the element's text,
keep length 10-300, skip exclusion keywords, then the shared tail with
confidence 0.7 and source "cheerio". -/
def method2Step (ep : String → List ℚ) (dt : String → ServiceType)
    (acc : ExtractState) (raw : String) : ExtractState :=
  let text := jsTrim raw
  if text.length < 10 || text.length > 300 then acc
  else if excludeHit text then acc
  else pushCandidate ep dt (mkRat 7 10) "cheerio" acc text

/-- METHOD 3 per-line step (lines 471-508): the line is already trimmed and
length-filtered; skip exclusion keywords, run extraction and validation,
and additionally require a curated service keyword in the line before
pushing with confidence 0.6 and source "raw-text". -/
def method3Step (ep : String → List ℚ) (dt : String → ServiceType)
    (acc : ExtractState) (line : String) : ExtractState :=
  if excludeHit line then acc
  else
    let lineLower := jsToLower line
    let hasKeyword := (gelKeywords ++ pedicureKeywords ++ acrylicKeywords).any
      (fun kw => strContains lineLower (jsToLower kw))
    let prices := ep line
    if prices.isEmpty then acc
    else
      let serviceType := dt line
      if serviceType = .other then acc
      else
        let validPrices := validPricesFor serviceType prices
        match validPrices with
        | [] => acc
        | v0 :: _ =>
          if !hasKeyword then acc
          else
            let key := (serviceType, v0)
            if acc.seen.contains key then acc
            else
              { services := acc.services ++
                  [{ serviceName := jsTrim (strTake line 80), serviceType := serviceType,
                     price := v0, confidence := mkRat 3 5, source := "raw-text" }],
                seen := acc.seen ++ [key] }

/-- `extractAllServices` (lines 334-514): METHOD 1 over the rendered
elements' texts surviving the in-page filter, METHOD 2 over the texts of
the structurally selected elements, and, when fewer than 3 services were
found, METHOD 3 over the trimmed, length-filtered lines of the body text.
The page/HTML inputs are abstracted to the element text lists the three
methods iterate over; `ep`/`dt` abstract the imported price-extractor
functions. -/
def extractAllServices (ep : String → List ℚ) (dt : String → ServiceType)
    (elementTexts : List String) (structTexts : List String)
    (bodyText : String) : List ServicePrice :=
  let m1Inputs := (elementTexts.filter method1PageFilter).map jsTrim
  let s1 := m1Inputs.foldl (method1Step ep dt) ⟨[], []⟩
  let s2 := structTexts.foldl (method2Step ep dt) s1
  let s3 :=
    if s2.services.length < 3 then
      let lines := ((jsSplitNl bodyText).map jsTrim).filter
        (fun l => 10 < l.length && l.length < 200)
      lines.foldl (method3Step ep dt) s2
    else s2
  s3.services

/-- Insert into an ascending list, keeping order. -/
def insertAsc (x : ℚ) : List ℚ → List ℚ
  | [] => [x]
  | y :: ys => if x ≤ y then x :: y :: ys else y :: insertAsc x ys

/-- Ascending numeric sort, the effect of `[...].sort((a, b) => a - b)`. -/
def sortAsc (l : List ℚ) : List ℚ :=
  l.foldr insertAsc []

/-- JavaScript `Math.round` on a rational, computed on the numerator and
denominator: `⌊x + 1/2⌋ = ⌊(2 num + den) / (2 den)⌋`, where `/` on `ℤ` is
Euclidean (flooring, as the divisor is positive).  Proved equal to
Mathlib's `round` below. -/
def jsRound (x : ℚ) : ℤ :=
  (2 * x.num + (x.den : ℤ)) / (2 * (x.den : ℤ))

/-- The exact mean of two rationals, computed on numerators and
denominators.  Proved equal to `(a + b) / 2` below. -/
def meanQ (a b : ℚ) : ℚ :=
  mkRat (a.num * b.den + b.num * a.den) (2 * a.den * b.den)

/-- `median` (lines 322-329): 0 on the empty list; otherwise sort
ascending, and return `Math.round` of the middle element (odd length) or
of the mean of the two middle elements (even length). -/
def median (numbers : List ℚ) : ℤ :=
  if numbers.isEmpty then 0
  else
    let sorted := sortAsc numbers
    let mid := sorted.length / 2
    if sorted.length % 2 = 0 then
      jsRound (meanQ (sorted.getD (mid - 1) 0) (sorted.getD mid 0))
    else jsRound (sorted.getD mid 0)

/-- The standard median of a price list, written from the spec's words:
middle element of the sorted list, or the mean of the two middle elements
for an even length. -/
def standardMedian (numbers : List ℚ) : ℚ :=
  let sorted := sortAsc numbers
  let mid := sorted.length / 2
  if sorted.length % 2 = 0 then (sorted.getD (mid - 1) 0 + sorted.getD mid 0) / 2
  else sorted.getD mid 0

/-- The spec's aggregated category price: the standard median of the
bucket's prices rounded to the nearest whole currency unit, and
`undefined` for an empty bucket. -/
def specCategoryPrice (prices : List ℚ) : Option ℤ :=
  if prices = [] then none else some (round (standardMedian prices))

/-- The gel bucket (lines 281-283): explicit type tag or a gel keyword in
the lower-cased service name. -/
def gelBucket (services : List ServicePrice) : List ServicePrice :=
  services.filter (fun s => s.serviceType = ServiceType.gel ||
    gelKeywords.any (fun kw => strContains (jsToLower s.serviceName) kw))

/-- The pedicure bucket (lines 284-286). -/
def pedicureBucket (services : List ServicePrice) : List ServicePrice :=
  services.filter (fun s => s.serviceType = ServiceType.pedicure ||
    pedicureKeywords.any (fun kw => strContains (jsToLower s.serviceName) kw))

/-- The acrylic bucket (lines 287-289). -/
def acrylicBucket (services : List ServicePrice) : List ServicePrice :=
  services.filter (fun s => s.serviceType = ServiceType.acrylic ||
    acrylicKeywords.any (fun kw => strContains (jsToLower s.serviceName) kw))

/-- The `ScrapedPrices` result record. -/
structure ScrapedPrices where
  gel : Option ℤ := none
  pedicure : Option ℤ := none
  acrylic : Option ℤ := none
  success : Bool
  confidence : ℚ
  source : String
  allServices : Option (List ServicePrice) := none
deriving DecidableEq, Repr

/-- Lines 280-300 of `scrapeCompetitorPrices`: bucket the extracted
services, take the median of each non-empty bucket, and derive confidence
and success. -/
def aggregateServices (bestServices : List ServicePrice)
    (successfulUrl : String) : ScrapedPrices :=
  let gelServices := gelBucket bestServices
  let pedicureServices := pedicureBucket bestServices
  let acrylicServices := acrylicBucket bestServices
  let confidence : ℚ :=
    (((if gelServices.length > 0 then 1 else 0) +
      (if pedicureServices.length > 0 then 1 else 0) +
      (if acrylicServices.length > 0 then 1 else 0) : ℚ)) / 3
  { gel := if gelServices.length > 0 then
      some (median (gelServices.map ServicePrice.price)) else none,
    pedicure := if pedicureServices.length > 0 then
      some (median (pedicureServices.map ServicePrice.price)) else none,
    acrylic := if acrylicServices.length > 0 then
      some (median (acrylicServices.map ServicePrice.price)) else none,
    success := decide (confidence > 0),
    confidence := confidence,
    source := successfulUrl,
    allServices := some bestServices }

/-- Whether `scrapeCompetitorPrices` exits before any navigation, and with
which result. -/
inductive ScrapeOutcome where
  | earlyExit (r : ScrapedPrices)
  | proceed
deriving DecidableEq, Repr

/-- `invalidUrlPatterns` (lines 140-143). -/
def invalidUrlPatterns : List String :=
  ["google.com/search", "google.com/maps"]

/-- The pre-navigation guards of `scrapeCompetitorPrices` (lines 128-148):
empty, `"#"` or non-`http`-prefixed URLs, and Google search/maps URLs,
return the zero-confidence default result before any page is created. -/
def scrapePreNav (websiteUrl : String) : ScrapeOutcome :=
  let result : ScrapedPrices :=
    { success := false, confidence := 0, source := websiteUrl }
  if websiteUrl = "" || websiteUrl = "#" || !startsWithStr websiteUrl "http" then
    .earlyExit result
  else if invalidUrlPatterns.any (fun p => strContains websiteUrl p) then
    .earlyExit result
  else .proceed

/-- The spec's wording "not HTTP(S)": a URL is HTTP(S) when its scheme is
`http://` or `https://`. -/
def isHttpS (url : String) : Bool :=
  startsWithStr url "http://" || startsWithStr url "https://"

/-- JavaScript `Map.set` semantics on an insertion-ordered association
list: replace in place when the key exists, append otherwise. -/
def mapSet {β : Type} (l : List (String × β)) (k : String) (v : β) :
    List (String × β) :=
  match l with
  | [] => [(k, v)]
  | (k', v') :: rest =>
    if k' = k then (k', v) :: rest else (k', v') :: mapSet rest k v

/-- One chunk of `batchScrapeCompetitors`' loop body (lines 529-538):
scrape the dequeued batch concurrently (`Promise.all` preserves order, so
the outcome is the pointwise map) and record each result by name. -/
def recordBatch {R : Type} (scrape : String → String → R)
    (batch : List (String × String)) (results : List (String × R)) :
    List (String × R) :=
  let batchResults := batch.map (fun comp => scrape comp.2 comp.1)
  (batch.zip batchResults).foldl (fun acc p => mapSet acc p.1.1 p.2) results

/-- The `while (queue.length > 0)` loop of `batchScrapeCompetitors`,
with the queue length as fuel: with `concurrency ≥ 1` each iteration
removes at least one element, so fuel `queue.length` runs the loop to
completion exactly as the source does (with `concurrency = 0` the source
loops forever). -/
def batchLoop {R : Type} (scrape : String → String → R) (concurrency : ℕ) :
    ℕ → List (String × String) → List (String × R) → List (String × R)
  | _, [], results => results
  | 0, _, results => results
  | fuel + 1, queue@(_ :: _), results =>
    let batch := queue.take concurrency
    let rest := queue.drop concurrency
    batchLoop scrape concurrency fuel rest (recordBatch scrape batch results)

/-- `batchScrapeCompetitors` (lines 519-545): competitors are
`(name, website)` pairs, results a name-keyed insertion-ordered map;
`scrape` abstracts `scrapeCompetitorPrices`. -/
def batchScrapeCompetitors {R : Type} (scrape : String → String → R)
    (competitors : List (String × String)) (concurrency : ℕ) :
    List (String × R) :=
  batchLoop scrape concurrency competitors.length competitors []

/-- A navigation wait strategy: a `waitUntil` event plus a timeout in
milliseconds. -/
structure NavStrategy where
  waitUntil : String
  timeout : ℕ
deriving DecidableEq, Repr

/-- The `strategies` list of `navigateToUrl` (lines 264-268). -/
def strategies : List NavStrategy :=
  [⟨"domcontentloaded", 15000⟩, ⟨"networkidle0", 20000⟩, ⟨"load", 25000⟩]

/-- `strategies[i] || strategies[0]` (line 271): out-of-range indexing
yields `undefined`, so every attempt beyond the list falls back to the
first strategy. -/
def strategyForAttempt (i : ℕ) : NavStrategy :=
  (strategies.get? i).getD (strategies.get ⟨0, by decide⟩)

/-- The attempt loop of `navigateToUrl` (lines 258-304) over the attempt
indices `0..retries-1`.  `goto i s` models `page.goto` on attempt `i` with
strategy `s`: `none` is success, `some msg` a thrown error with message
`msg`.  On an `ERR_BLOCKED_BY_CLIENT` message the loop retries once
against the opposite URL scheme (`altGoto`) before moving on; after the
last attempt it returns `false`. -/
def navLoop (goto : ℕ → NavStrategy → Option String)
    (altGoto : ℕ → NavStrategy → Option String) : List ℕ → Bool
  | [] => false
  | i :: rest =>
    let strategy := strategyForAttempt i
    match goto i strategy with
    | none => true
    | some msg =>
      if strContains msg "ERR_BLOCKED_BY_CLIENT" then
        match altGoto i strategy with
        | none => true
        | some _ => navLoop goto altGoto rest
      else navLoop goto altGoto rest

/-- `navigateToUrl` with its outcomes abstracted into the two goto
oracles: runs the attempt loop for `retries` attempts and reports a
boolean, never a thrown error. -/
def navigateToUrl (goto : ℕ → NavStrategy → Option String)
    (altGoto : ℕ → NavStrategy → Option String) (retries : ℕ) : Bool :=
  navLoop goto altGoto (List.range retries)

/-- Subscription tiers of the rate limiter. -/
inductive Tier where
  | free
  | pro
  | enterprise
deriving DecidableEq, Repr

/-- `RATE_LIMITS` (lines 383-387), at the defaults used when the
corresponding environment variables are unset. -/
def RATE_LIMITS : Tier → ℕ
  | .free => 100
  | .pro => 1000
  | .enterprise => 10000

/-- `Date.now().toString().slice(0, -5)` (line 401): the window bucket is
the decimal representation of the current millisecond timestamp with its
last five digits dropped. -/
def bucketOf (now : ℕ) : String :=
  let s := toString now
  strTake s (s.data.length - 5)

/-- The Redis window key `ratelimit:<userId>:<bucket>` (line 401). -/
def rateKey (userId : String) (now : ℕ) : String :=
  "ratelimit:" ++ userId ++ ":" ++ bucketOf now

/-- The Redis backing store: either reachable, holding the counters and
the per-key TTLs (in seconds, `-1` for a key without expiry, as `TTL`
reports), or down (every command throws). -/
inductive RedisState where
  | up (counters : List (String × ℕ)) (ttls : List (String × ℤ))
  | down
deriving DecidableEq, Repr

/-- Association-list lookup with a default. -/
def assocGetD {β : Type} (l : List (String × β)) (k : String) (d : β) : β :=
  match l.find? (fun p => p.1 = k) with
  | some p => p.2
  | none => d

/-- `RateLimitResult` (lines 389-394). -/
structure RateLimitResult where
  success : Bool
  limit : ℕ
  remaining : ℕ
  reset : ℤ
deriving DecidableEq, Repr

/-- `checkRateLimit` (lines 396-429): increment the window counter, set a
3600-second expiry on the first request of a window, and allow while the
counter stays within the tier limit; when the store is down, fail open
with the full quota. -/
def checkRateLimit (st : RedisState) (userId : String) (tier : Tier)
    (now : ℕ) : RateLimitResult × RedisState :=
  let limit := RATE_LIMITS tier
  let key := rateKey userId now
  match st with
  | .down =>
    ({ success := true, limit := limit, remaining := limit,
       reset := (now : ℤ) + 3600000 }, .down)
  | .up counters ttls =>
    let current := assocGetD counters key 0 + 1
    let counters' := mapSet counters key current
    let ttls' := if current = 1 then mapSet ttls key 3600 else ttls
    let ttl := assocGetD ttls' key (-1)
    ({ success := decide (current ≤ limit), limit := limit,
       remaining := limit - current, reset := (now : ℤ) + ttl * 1000 },
     .up counters' ttls')

/-- The store after `n` requests for the same identity and timestamp,
starting from an empty reachable store. -/
def applyRequests (userId : String) (tier : Tier) (now : ℕ) : ℕ → RedisState
  | 0 => .up [] []
  | n + 1 => (checkRateLimit (applyRequests userId tier now n) userId tier now).2

/-- The result handed to the `n`-th request (1-indexed) in one window. -/
def nthResult (userId : String) (tier : Tier) (now : ℕ) (n : ℕ) :
    RateLimitResult :=
  (checkRateLimit (applyRequests userId tier now (n - 1)) userId tier now).1

/-- The number of non-empty category buckets. -/
def numNonemptyBuckets (sv : List ServicePrice) : ℕ :=
  (if gelBucket sv = [] then 0 else 1) +
  (if pedicureBucket sv = [] then 0 else 1) +
  (if acrylicBucket sv = [] then 0 else 1)

/-- A candidate's price lies in the plausible range of its service type. -/
def RangeOK (s : ServicePrice) : Prop :=
  s.serviceType ≠ .other ∧
  ∃ r, PRICE_RANGES s.serviceType = some r ∧ r.1 ≤ s.price ∧ s.price ≤ r.2

section Lemmas

/-- Fold preservation of an invariant. -/
theorem foldl_inv {σ α : Type} {f : σ → α → σ} {P : σ → Prop}
    (hf : ∀ acc a, P acc → P (f acc a)) :
    ∀ (l : List α) (acc : σ), P acc → P (l.foldl f acc) := by
  intro l
  induction l with
  | nil => intro acc h; exact h
  | cons a l ih => intro acc h; exact ih (f acc a) (hf acc a h)

/-- A price surviving the range filter is within the range of its
(non-`other`) service type. -/
theorem validPricesFor_sound {st : ServiceType} {prices : List ℚ} {p : ℚ}
    (hst : st ≠ .other) (hp : p ∈ validPricesFor st prices) :
    ∃ r, PRICE_RANGES st = some r ∧ r.1 ≤ p ∧ p ≤ r.2 := by
  cases st with
  | other => exact absurd rfl hst
  | gel =>
    simp only [validPricesFor, PRICE_RANGES, List.mem_filter, Bool.and_eq_true,
      decide_eq_true_eq] at hp
    exact ⟨(20, 90), rfl, hp.2.1, hp.2.2⟩
  | pedicure =>
    simp only [validPricesFor, PRICE_RANGES, List.mem_filter, Bool.and_eq_true,
      decide_eq_true_eq] at hp
    exact ⟨(25, 140), rfl, hp.2.1, hp.2.2⟩
  | acrylic =>
    simp only [validPricesFor, PRICE_RANGES, List.mem_filter, Bool.and_eq_true,
      decide_eq_true_eq] at hp
    exact ⟨(35, 200), rfl, hp.2.1, hp.2.2⟩

/-- `pushCandidate` preserves the range invariant on the service list. -/
theorem pushCandidate_rangeOK {ep : String → List ℚ} {dt : String → ServiceType}
    {conf : ℚ} {src : String} (acc : ExtractState) (text : String)
    (h : ∀ x ∈ acc.services, RangeOK x) :
    ∀ x ∈ (pushCandidate ep dt conf src acc text).services, RangeOK x := by
  unfold pushCandidate
  dsimp only
  split
  · exact h
  · split
    · exact h
    · rename_i hother
      split
      · exact h
      · rename_i v0 rest heq
        split
        · exact h
        · intro x hx
          simp only [List.mem_append, List.mem_singleton] at hx
          rcases hx with hx | hx
          · exact h x hx
          · subst hx
            refine ⟨hother, ?_⟩
            have hv0 : v0 ∈ validPricesFor (dt text) (ep text) := by
              rw [heq]; exact List.mem_cons_self _ _
            exact validPricesFor_sound hother hv0

/-- `method1Step` preserves the range invariant. -/
theorem method1Step_rangeOK {ep : String → List ℚ} {dt : String → ServiceType}
    (acc : ExtractState) (text : String)
    (h : ∀ x ∈ acc.services, RangeOK x) :
    ∀ x ∈ (method1Step ep dt acc text).services, RangeOK x := by
  unfold method1Step
  split
  · exact h
  · exact pushCandidate_rangeOK acc text h

/-- `method2Step` preserves the range invariant. -/
theorem method2Step_rangeOK {ep : String → List ℚ} {dt : String → ServiceType}
    (acc : ExtractState) (raw : String)
    (h : ∀ x ∈ acc.services, RangeOK x) :
    ∀ x ∈ (method2Step ep dt acc raw).services, RangeOK x := by
  unfold method2Step
  dsimp only
  split
  · exact h
  · split
    · exact h
    · exact pushCandidate_rangeOK acc (jsTrim raw) h

/-- `method3Step` preserves the range invariant. -/
theorem method3Step_rangeOK {ep : String → List ℚ} {dt : String → ServiceType}
    (acc : ExtractState) (line : String)
    (h : ∀ x ∈ acc.services, RangeOK x) :
    ∀ x ∈ (method3Step ep dt acc line).services, RangeOK x := by
  unfold method3Step
  dsimp only
  split
  · exact h
  · split
    · exact h
    · rename_i hne
      split
      · exact h
      · rename_i hother
        split
        · exact h
        · rename_i v0 rest heq
          split
          · exact h
          · split
            · exact h
            · intro x hx
              simp only [List.mem_append, List.mem_singleton] at hx
              rcases hx with hx | hx
              · exact h x hx
              · subst hx
                refine ⟨hother, ?_⟩
                have hv0 : v0 ∈ validPricesFor (dt line) (ep line) := by
                  rw [heq]; exact List.mem_cons_self _ _
                exact validPricesFor_sound hother hv0

/-- Every service produced by `extractAllServices` satisfies the range
invariant. -/
theorem extractAllServices_rangeOK (ep : String → List ℚ)
    (dt : String → ServiceType) (v s : List String) (b : String) :
    ∀ x ∈ extractAllServices ep dt v s b, RangeOK x := by
  unfold extractAllServices
  dsimp only
  have h1 : ∀ x ∈ (((v.filter method1PageFilter).map jsTrim).foldl
      (method1Step ep dt) (⟨[], []⟩ : ExtractState)).services, RangeOK x := by
    refine foldl_inv (P := fun a => ∀ x ∈ a.services, RangeOK x)
      (fun a t ha => method1Step_rangeOK a t ha) _ _ ?_
    intro x hx
    simp at hx
  have h2 : ∀ x ∈ (s.foldl (method2Step ep dt)
      (((v.filter method1PageFilter).map jsTrim).foldl
        (method1Step ep dt) ⟨[], []⟩)).services, RangeOK x :=
    foldl_inv (P := fun a => ∀ x ∈ a.services, RangeOK x)
      (fun a t ha => method2Step_rangeOK a t ha) _ _ h1
  split
  · exact foldl_inv (P := fun a => ∀ x ∈ a.services, RangeOK x)
      (fun a t ha => method3Step_rangeOK a t ha) _ _ h2
  · exact h2

/-- An excluded text leaves the METHOD 1 step unchanged. -/
theorem method1Step_excluded {ep : String → List ℚ} {dt : String → ServiceType}
    (acc : ExtractState) (t : String) (h : excludeHit t = true) :
    method1Step ep dt acc t = acc := by
  simp [method1Step, h]

/-- An excluded (trimmed) text leaves the METHOD 2 step unchanged. -/
theorem method2Step_excluded {ep : String → List ℚ} {dt : String → ServiceType}
    (acc : ExtractState) (raw : String) (h : excludeHit (jsTrim raw) = true) :
    method2Step ep dt acc raw = acc := by
  unfold method2Step
  dsimp only
  split
  · rfl
  · simp [h]

/-- An excluded line leaves the METHOD 3 step unchanged. -/
theorem method3Step_excluded {ep : String → List ℚ} {dt : String → ServiceType}
    (acc : ExtractState) (line : String) (h : excludeHit line = true) :
    method3Step ep dt acc line = acc := by
  simp [method3Step, h]

/-- Dropping an excluded element text from the rendered-element inputs
leaves the extraction result unchanged. -/
theorem extractAllServices_dropExcluded1 (ep : String → List ℚ)
    (dt : String → ServiceType) (t : String) (v s : List String) (b : String)
    (h : excludeHit (jsTrim t) = true) :
    extractAllServices ep dt (t :: v) s b = extractAllServices ep dt v s b := by
  unfold extractAllServices
  dsimp only
  by_cases hf : method1PageFilter t
  · simp only [List.filter_cons, hf, if_true, List.map_cons, List.foldl_cons,
      method1Step_excluded _ _ h]
  · simp only [List.filter_cons, hf, if_false, Bool.false_eq_true]

/-- Dropping an excluded element text from the structural-selector inputs
leaves the extraction result unchanged. -/
theorem extractAllServices_dropExcluded2 (ep : String → List ℚ)
    (dt : String → ServiceType) (t : String) (v s : List String) (b : String)
    (h : excludeHit (jsTrim t) = true) :
    extractAllServices ep dt v (t :: s) b = extractAllServices ep dt v s b := by
  unfold extractAllServices
  dsimp only
  rw [List.foldl_cons, method2Step_excluded _ _ h]

end Lemmas

/-- C10: every candidate returned by `extractAllServices` has a price
within the inclusive plausible range of its detected service type
(gel 20-90, pedicure 25-140, acrylic 35-200), for any extraction
functions and any inputs; hence every price in the `allServices` list of
a result already satisfies the range invariant. -/
theorem extraction_range_invariant (ep : String → List ℚ)
    (dt : String → ServiceType) (v s : List String) (b : String) :
    ∀ x ∈ extractAllServices ep dt v s b,
      x.serviceType ≠ ServiceType.other ∧
      (x.serviceType = .gel → 20 ≤ x.price ∧ x.price ≤ 90) ∧
      (x.serviceType = .pedicure → 25 ≤ x.price ∧ x.price ≤ 140) ∧
      (x.serviceType = .acrylic → 35 ≤ x.price ∧ x.price ≤ 200) := by
  intro x hx
  obtain ⟨hother, r, hr, h1, h2⟩ := extractAllServices_rangeOK ep dt v s b x hx
  refine ⟨hother, ?_, ?_, ?_⟩ <;> intro hty <;> rw [hty] at hr <;>
    simp only [PRICE_RANGES, Option.some.injEq] at hr <;> subst hr <;>
    exact ⟨h1, h2⟩

/-- Witness for C10 at a concrete raw-text extraction. -/
theorem extraction_range_invariant_witness :
    (⟨"Classic Pedicure $35 today", .pedicure, 35, mkRat 3 5, "raw-text"⟩ : ServicePrice) ∈
      extractAllServices scanPrices detectServiceType [] []
        "Classic Pedicure $35 today" ∧
    ((⟨"Classic Pedicure $35 today", .pedicure, 35, mkRat 3 5, "raw-text"⟩ :
        ServicePrice).serviceType ≠ ServiceType.other ∧
      ((⟨"Classic Pedicure $35 today", .pedicure, 35, mkRat 3 5, "raw-text"⟩ :
        ServicePrice).serviceType = .gel → 20 ≤ (35 : ℚ) ∧ (35 : ℚ) ≤ 90) ∧
      ((⟨"Classic Pedicure $35 today", .pedicure, 35, mkRat 3 5, "raw-text"⟩ :
        ServicePrice).serviceType = .pedicure → 25 ≤ (35 : ℚ) ∧ (35 : ℚ) ≤ 140) ∧
      ((⟨"Classic Pedicure $35 today", .pedicure, 35, mkRat 3 5, "raw-text"⟩ :
        ServicePrice).serviceType = .acrylic → 35 ≤ (35 : ℚ) ∧ (35 : ℚ) ≤ 200)) :=
  ⟨by decide,
   extraction_range_invariant scanPrices detectServiceType [] []
     "Classic Pedicure $35 today" _ (by decide)⟩

/-- C4: a candidate whose source text contains an exclusion keyword is
never added by any of the three extraction strategies — each method's step
leaves the state unchanged on such a text, and removing such a text from
the extraction inputs leaves the extracted service list (hence the
aggregation input) unchanged. -/
theorem exclusion_keyword_never_counted :
    (∀ (ep : String → List ℚ) (dt : String → ServiceType) (acc : ExtractState)
       (t : String), excludeHit t = true → method1Step ep dt acc t = acc) ∧
    (∀ (ep : String → List ℚ) (dt : String → ServiceType) (acc : ExtractState)
       (t : String), excludeHit (jsTrim t) = true → method2Step ep dt acc t = acc) ∧
    (∀ (ep : String → List ℚ) (dt : String → ServiceType) (acc : ExtractState)
       (t : String), excludeHit t = true → method3Step ep dt acc t = acc) ∧
    (∀ (ep : String → List ℚ) (dt : String → ServiceType) (t : String)
       (v s : List String) (b : String), excludeHit (jsTrim t) = true →
       extractAllServices ep dt (t :: v) s b = extractAllServices ep dt v s b) ∧
    (∀ (ep : String → List ℚ) (dt : String → ServiceType) (t : String)
       (v s : List String) (b : String), excludeHit (jsTrim t) = true →
       extractAllServices ep dt v (t :: s) b = extractAllServices ep dt v s b) :=
  ⟨fun _ _ acc t h => method1Step_excluded acc t h,
   fun _ _ acc t h => method2Step_excluded acc t h,
   fun _ _ acc t h => method3Step_excluded acc t h,
   fun ep dt t v s b h => extractAllServices_dropExcluded1 ep dt t v s b h,
   fun ep dt t v s b h => extractAllServices_dropExcluded2 ep dt t v s b h⟩

/-- Witness for C4: a refill text with an in-range price is dropped. -/
theorem exclusion_keyword_never_counted_witness :
    excludeHit "Gel Refill $50" = true ∧
    method1Step scanPrices detectServiceType ⟨[], []⟩ "Gel Refill $50" = ⟨[], []⟩ ∧
    extractAllServices scanPrices detectServiceType ["Gel Refill $50"] [] "" =
      extractAllServices scanPrices detectServiceType [] [] "" :=
  ⟨by decide,
   exclusion_keyword_never_counted.1 scanPrices detectServiceType ⟨[], []⟩
     "Gel Refill $50" (by decide),
   exclusion_keyword_never_counted.2.2.2.1 scanPrices detectServiceType
     "Gel Refill $50" [] [] "" (by decide)⟩

section MedianLemmas

/-- `jsRound` is Mathlib's `round`, i.e. rounding to the nearest integer
with halves up, JavaScript's `Math.round`. -/
theorem jsRound_eq_round (x : ℚ) : jsRound x = round x := by
  unfold jsRound
  have hd : ((x.den : ℚ)) ≠ 0 := by exact_mod_cast x.den_nz
  have hnum : (x.num : ℚ) = x * (x.den : ℚ) := (div_eq_iff hd).mp (Rat.num_div_den x)
  have key : (x + 1/2 : ℚ) = ((2 * x.num + (x.den : ℤ) : ℤ) : ℚ) / ((2 * x.den : ℕ) : ℚ) := by
    rw [eq_div_iff (by positivity : ((2 * x.den : ℕ) : ℚ) ≠ 0)]
    push_cast
    rw [hnum]
    ring
  rw [round_eq, key, Rat.floor_intCast_div_natCast]
  push_cast
  ring_nf

/-- `meanQ` is the exact mean. -/
theorem meanQ_eq (a b : ℚ) : meanQ a b = (a + b) / 2 := by
  unfold meanQ
  rw [Rat.mkRat_eq_divInt, Rat.divInt_eq_div]
  have ha : ((a.den : ℚ)) ≠ 0 := by exact_mod_cast a.den_nz
  have hb : ((b.den : ℚ)) ≠ 0 := by exact_mod_cast b.den_nz
  have hna : (a.num : ℚ) = a * (a.den : ℚ) := (div_eq_iff ha).mp (Rat.num_div_den a)
  have hnb : (b.num : ℚ) = b * (b.den : ℚ) := (div_eq_iff hb).mp (Rat.num_div_den b)
  rw [div_eq_div_iff (by positivity) (by norm_num)]
  push_cast
  rw [hna, hnb]
  ring

/-- On a non-empty list, the scraper's `median` is the rounded standard
median. -/
theorem median_eq_round_standardMedian {l : List ℚ} (h : l ≠ []) :
    median l = round (standardMedian l) := by
  unfold median standardMedian
  rw [if_neg (by simpa [List.isEmpty_iff] using h)]
  dsimp only
  split
  · rw [meanQ_eq, jsRound_eq_round]
  · rw [jsRound_eq_round]

/-- The reduction step shared by the three category fields. -/
theorem category_field_eq_spec (bucket : List ServicePrice) :
    (if bucket.length > 0 then some (median (bucket.map ServicePrice.price))
      else none) = specCategoryPrice (bucket.map ServicePrice.price) := by
  by_cases hb : bucket = []
  · subst hb
    simp [specCategoryPrice]
  · have hlen : bucket.length > 0 := List.length_pos.mpr hb
    have hmap : bucket.map ServicePrice.price ≠ [] := by
      simpa [List.map_eq_nil_iff] using hb
    rw [if_pos hlen]
    unfold specCategoryPrice
    rw [if_neg hmap, median_eq_round_standardMedian hmap]

/-- Each category field of the aggregation is `specCategoryPrice` of the
bucket's prices. -/
theorem aggregate_eq_specCategoryPrice (sv : List ServicePrice) (url : String) :
    (aggregateServices sv url).gel =
      specCategoryPrice ((gelBucket sv).map ServicePrice.price) ∧
    (aggregateServices sv url).pedicure =
      specCategoryPrice ((pedicureBucket sv).map ServicePrice.price) ∧
    (aggregateServices sv url).acrylic =
      specCategoryPrice ((acrylicBucket sv).map ServicePrice.price) := by
  refine ⟨?_, ?_, ?_⟩ <;>
  · show (if _ > 0 then _ else _) = _
    exact category_field_eq_spec _

end MedianLemmas

/-- C1: for each category bucket the aggregated price equals the standard
median of the bucket's (extraction-validated, in-range) candidate prices
rounded to the nearest whole currency unit, `undefined` for an empty
bucket; in particular, acrylic candidates priced 30, 40 and 200 against
the 35-200 acrylic range lose the 30 during extraction and aggregate to
median 40, 200 = 120. -/
theorem aggregated_price_is_rounded_median :
    (∀ (ep : String → List ℚ) (dt : String → ServiceType) (v s : List String)
       (b : String) (url : String),
      (aggregateServices (extractAllServices ep dt v s b) url).gel =
        specCategoryPrice ((gelBucket (extractAllServices ep dt v s b)).map
          ServicePrice.price) ∧
      (aggregateServices (extractAllServices ep dt v s b) url).pedicure =
        specCategoryPrice ((pedicureBucket (extractAllServices ep dt v s b)).map
          ServicePrice.price) ∧
      (aggregateServices (extractAllServices ep dt v s b) url).acrylic =
        specCategoryPrice ((acrylicBucket (extractAllServices ep dt v s b)).map
          ServicePrice.price)) ∧
    (extractAllServices scanPrices detectServiceType
        ["acrylic full set $30", "acrylic full set $40", "acrylic full set $200"]
        [] "" =
      [⟨"acrylic full set $40", .acrylic, 40, mkRat 4 5, "puppeteer-eval"⟩,
       ⟨"acrylic full set $200", .acrylic, 200, mkRat 4 5, "puppeteer-eval"⟩] ∧
     (aggregateServices (extractAllServices scanPrices detectServiceType
        ["acrylic full set $30", "acrylic full set $40", "acrylic full set $200"]
        [] "") "url").acrylic = some 120) :=
  ⟨fun ep dt v s b url => aggregate_eq_specCategoryPrice _ url,
   by decide, by decide⟩

/-- C6: confidence is the number of non-empty category buckets divided by
3, and success holds exactly when confidence is positive. -/
theorem confidence_counts_buckets (sv : List ServicePrice) (url : String) :
    (aggregateServices sv url).confidence = (numNonemptyBuckets sv : ℚ) / 3 ∧
    ((aggregateServices sv url).success = true ↔
      (aggregateServices sv url).confidence > 0) := by
  constructor
  · show (((if _ > 0 then (1 : ℚ) else 0) + _ + _) / 3) = _
    unfold numNonemptyBuckets
    push_cast
    congr 1
    rcases Nat.eq_zero_or_pos (gelBucket sv).length with h1 | h1 <;>
      rcases Nat.eq_zero_or_pos (pedicureBucket sv).length with h2 | h2 <;>
      rcases Nat.eq_zero_or_pos (acrylicBucket sv).length with h3 | h3 <;>
      simp_all [List.length_eq_zero, List.length_pos_iff_ne_nil, Nat.pos_iff_ne_zero]
  · show (decide (_ > (0 : ℚ)) = true ↔ _)
    exact decide_eq_true_iff

/-- C2 as stated is refuted: `httpx://example.com` is not an HTTP(S) URL,
yet the guard (which only tests the prefix `"http"`) lets it proceed to
navigation. -/
theorem invalid_url_guard_counterexample :
    isHttpS "httpx://example.com" = false ∧
    scrapePreNav "httpx://example.com" = ScrapeOutcome.proceed := by
  constructor
  · decide
  · decide

/-- C2 amended: for every url that is empty, `"#"`, does not start with
`"http"`, or contains a Google search/maps pattern, `scrapeCompetitorPrices`
returns the zero-confidence failure before any navigation. -/
theorem invalid_url_early_exit (url : String)
    (h : url = "" ∨ url = "#" ∨ startsWithStr url "http" = false ∨
      invalidUrlPatterns.any (fun p => strContains url p) = true) :
    scrapePreNav url =
      ScrapeOutcome.earlyExit { success := false, confidence := 0, source := url } := by
  unfold scrapePreNav
  split
  · rfl
  · rename_i hfirst
    simp only [Bool.or_eq_true, Bool.not_eq_eq_eq_not, Bool.not_true,
      decide_eq_true_eq] at hfirst
    push_neg at hfirst
    split
    · rfl
    · rename_i hsecond
      rcases h with h | h | h | h
      · exact absurd h hfirst.1.1
      · exact absurd h hfirst.1.2
      · exact absurd h hfirst.2
      · exact absurd h hsecond

/-- Witness for the amended C2 at `"#"`. -/
theorem invalid_url_early_exit_witness :
    (("#" : String) = "" ∨ ("#" : String) = "#" ∨
      startsWithStr "#" "http" = false ∨
      invalidUrlPatterns.any (fun p => strContains "#" p) = true) ∧
    scrapePreNav "#" =
      ScrapeOutcome.earlyExit { success := false, confidence := 0, source := "#" } :=
  ⟨Or.inr (Or.inl rfl), invalid_url_early_exit "#" (Or.inr (Or.inl rfl))⟩

/-- C5 as stated is refuted: the single text
"Gel Manicure — $45, Fill $15" contains the exclusion keyword "fill", so
every extraction method skips the whole line and the pipeline yields no
candidate at all (in particular not one gel candidate at 45), and
aggregation sees no gel price. -/
theorem gel_fill_example_counterexample :
    extractAllServices scanPrices detectServiceType
      ["Gel Manicure — $45, Fill $15"] ["Gel Manicure — $45, Fill $15"]
      "Gel Manicure — $45, Fill $15" = [] ∧
    (aggregateServices (extractAllServices scanPrices detectServiceType
      ["Gel Manicure — $45, Fill $15"] ["Gel Manicure — $45, Fill $15"]
      "Gel Manicure — $45, Fill $15") "u").gel = none := by
  constructor
  · decide
  · decide

/-- C5 amended: the exclusion test applies to a whole line, so the
combined text yields nothing; when the gel service and the fill appear on
separate lines, extraction yields exactly one gel candidate at 45 and the
15 fill line contributes nothing, so aggregation reports gel = 45 only. -/
theorem gel_fill_example_amended :
    extractAllServices scanPrices detectServiceType [] []
      "Gel Manicure — $45\nFill $15" =
      [⟨"Gel Manicure — $45", .gel, 45, mkRat 3 5, "raw-text"⟩] ∧
    (aggregateServices (extractAllServices scanPrices detectServiceType [] []
      "Gel Manicure — $45\nFill $15") "u").gel = some 45 ∧
    (aggregateServices (extractAllServices scanPrices detectServiceType [] []
      "Gel Manicure — $45\nFill $15") "u").pedicure = none ∧
    (aggregateServices (extractAllServices scanPrices detectServiceType [] []
      "Gel Manicure — $45\nFill $15") "u").acrylic = none := by
  refine ⟨by decide, by decide, by decide, by decide⟩

section BatchLemmas

/-- Setting a fresh key appends the binding. -/
theorem mapSet_fresh {R : Type} (l : List (String × R)) (k : String) (v : R)
    (h : k ∉ l.map Prod.fst) : mapSet l k v = l ++ [(k, v)] := by
  induction l with
  | nil => rfl
  | cons p rest ih =>
    simp only [List.map_cons, List.mem_cons, not_or] at h
    unfold mapSet
    rw [if_neg (fun hc => h.1 hc.symm), ih h.2]
    exact rfl

/-- Unfolding one competitor from a recorded batch. -/
theorem recordBatch_cons {R : Type} (scrape : String → String → R)
    (c : String × String) (bs : List (String × String))
    (results : List (String × R)) :
    recordBatch scrape (c :: bs) results =
      recordBatch scrape bs (mapSet results c.1 (scrape c.2 c.1)) := by
  unfold recordBatch
  simp [List.zip]

/-- Recording a batch with fresh, distinct names appends exactly those
names, in order. -/
theorem recordBatch_keys {R : Type} (scrape : String → String → R) :
    ∀ (batch : List (String × String)) (results : List (String × R)),
      (results.map Prod.fst ++ batch.map Prod.fst).Nodup →
      (recordBatch scrape batch results).map Prod.fst =
        results.map Prod.fst ++ batch.map Prod.fst := by
  intro batch
  induction batch with
  | nil =>
    intro results _
    unfold recordBatch
    simp
  | cons c bs ih =>
    intro results hnd
    rw [recordBatch_cons]
    have hfresh : c.1 ∉ results.map Prod.fst := by
      have hd := (List.nodup_append.mp hnd).2.2
      intro hmem
      exact hd hmem (by simp)
    have hset := mapSet_fresh results c.1 (scrape c.2 c.1) hfresh
    have hkeys : (mapSet results c.1 (scrape c.2 c.1)).map Prod.fst =
        results.map Prod.fst ++ [c.1] := by
      rw [hset]; simp
    rw [ih (mapSet results c.1 (scrape c.2 c.1))
      (by rw [hkeys, List.append_assoc]; simpa using hnd), hkeys,
      List.append_assoc]
    simp

/-- The batch loop preserves and extends the key list: with enough fuel,
concurrency at least 1, and globally distinct names, the final key list is
the accumulated keys followed by the queued names. -/
theorem batchLoop_keys {R : Type} (scrape : String → String → R)
    (concurrency : ℕ) (hk : 1 ≤ concurrency) :
    ∀ (fuel : ℕ) (queue : List (String × String)) (results : List (String × R)),
      queue.length ≤ fuel →
      (results.map Prod.fst ++ queue.map Prod.fst).Nodup →
      (batchLoop scrape concurrency fuel queue results).map Prod.fst =
        results.map Prod.fst ++ queue.map Prod.fst := by
  intro fuel
  induction fuel with
  | zero =>
    intro queue results hlen _
    interval_cases hq : queue.length
    · rw [List.length_eq_zero] at hq
      subst hq
      simp [batchLoop]
  | succ n ih =>
    intro queue results hlen hnd
    match queue with
    | [] => simp [batchLoop]
    | q :: qs =>
      show (batchLoop scrape concurrency (n + 1) (q :: qs) results).map Prod.fst = _
      rw [batchLoop]
      have hsplit : ((q :: qs).take concurrency).map Prod.fst ++
          ((q :: qs).drop concurrency).map Prod.fst = (q :: qs).map Prod.fst := by
        rw [← List.map_append, List.take_append_drop]
      have hnd2 : (results.map Prod.fst ++ ((q :: qs).take concurrency).map Prod.fst ++
          ((q :: qs).drop concurrency).map Prod.fst).Nodup := by
        rw [List.append_assoc, hsplit]
        exact hnd
      have hrec := recordBatch_keys scrape ((q :: qs).take concurrency) results
        (hnd2.sublist (List.sublist_append_left _ _))
      rw [ih ((q :: qs).drop concurrency)
        (recordBatch scrape ((q :: qs).take concurrency) results)
        (by
          have hc := hk
          rw [List.length_drop]
          simp only [List.length_cons] at hlen ⊢
          omega)
        (by rw [hrec]; exact hnd2), hrec,
        List.append_assoc, hsplit]

end BatchLemmas

/-- C3 as stated is refuted: two targets sharing the name "A" collapse to
a single map entry, so the map size is 1 while there are 2 targets. -/
theorem batch_map_counterexample :
    (batchScrapeCompetitors (fun _ _ => (0 : ℕ)) [("A", "u1"), ("A", "u2")] 2).length = 1 ∧
    ([("A", "u1"), ("A", "u2")] : List (String × String)).length = 2 := by
  constructor
  · decide
  · decide

/-- C3 amended: for concurrency at least 1 (including values at least the
number of targets) and targets with pairwise-distinct names, the result
map's key list is exactly the list of target names — so its size equals
the number of targets and every target receives exactly one result. -/
theorem batch_map_keys {R : Type} (scrape : String → String → R)
    (targets : List (String × String)) (concurrency : ℕ)
    (hk : 1 ≤ concurrency) (hnd : (targets.map Prod.fst).Nodup) :
    (batchScrapeCompetitors scrape targets concurrency).map Prod.fst =
      targets.map Prod.fst := by
  unfold batchScrapeCompetitors
  have := batchLoop_keys scrape concurrency hk targets.length targets []
    (le_refl _) (by simpa using hnd)
  simpa using this

/-- Witness for the amended C3 with two distinct names and concurrency 1. -/
theorem batch_map_keys_witness :
    1 ≤ 1 ∧ (([("A", "u1"), ("B", "u2")] : List (String × String)).map Prod.fst).Nodup ∧
    (batchScrapeCompetitors (fun _ n => n) [("A", "u1"), ("B", "u2")] 1).map Prod.fst =
      ([("A", "u1"), ("B", "u2")] : List (String × String)).map Prod.fst :=
  ⟨le_refl 1, by decide,
   batch_map_keys (fun _ n => n) [("A", "u1"), ("B", "u2")] 1 (le_refl 1) (by decide)⟩

/-- When every goto attempt fails, the navigation loop returns false. -/
theorem navLoop_all_fail (goto altGoto : ℕ → NavStrategy → Option String)
    (hg : ∀ i s, goto i s ≠ none) (ha : ∀ i s, altGoto i s ≠ none) :
    ∀ l : List ℕ, navLoop goto altGoto l = false := by
  intro l
  induction l with
  | nil => rfl
  | cons i rest ih =>
    unfold navLoop
    dsimp only
    cases hgi : goto i (strategyForAttempt i) with
    | none => exact absurd hgi (hg i _)
    | some msg =>
      dsimp only
      by_cases hb : strContains msg "ERR_BLOCKED_BY_CLIENT" = true
      · rw [if_pos hb]
        cases hai : altGoto i (strategyForAttempt i) with
        | none => exact absurd hai (ha i _)
        | some m2 => exact ih
      · rw [if_neg hb]
        exact ih

/-- C9 as stated is refuted: cycling would give the fifth attempt
(index 4) the second strategy `networkidle0`/20s, but the code's
`strategies[i] || strategies[0]` gives it the first strategy
`domcontentloaded`/15s. -/
theorem strategy_cycling_counterexample :
    strategyForAttempt 4 = ⟨"domcontentloaded", 15000⟩ ∧
    strategyForAttempt 4 ≠ strategies.get ⟨1, by decide⟩ := by
  constructor
  · decide
  · decide

/-- C9 amended: the first three attempts use the strategies of increasing
strictness domcontentloaded/15s, networkidle0/20s, load/25s; every later
attempt falls back to the first strategy (no cycling); and when every
attempt fails, `navigateToUrl` returns false instead of raising. -/
theorem navigation_strategies_and_failure :
    strategyForAttempt 0 = ⟨"domcontentloaded", 15000⟩ ∧
    strategyForAttempt 1 = ⟨"networkidle0", 20000⟩ ∧
    strategyForAttempt 2 = ⟨"load", 25000⟩ ∧
    (∀ i, 3 ≤ i → strategyForAttempt i = ⟨"domcontentloaded", 15000⟩) ∧
    (∀ (goto altGoto : ℕ → NavStrategy → Option String) (retries : ℕ),
      (∀ i s, goto i s ≠ none) → (∀ i s, altGoto i s ≠ none) →
      navigateToUrl goto altGoto retries = false) := by
  refine ⟨by decide, by decide, by decide, ?_, ?_⟩
  · intro i hi
    unfold strategyForAttempt
    rw [List.get?_eq_none.mpr (by simpa [strategies] using hi)]
    rfl
  · intro goto altGoto retries hg ha
    exact navLoop_all_fail goto altGoto hg ha (List.range retries)

/-- Witness for the amended C9: attempt index 5 and a 4-attempt run that
always fails. -/
theorem navigation_strategies_witness :
    (3 ≤ 5 ∧ strategyForAttempt 5 = ⟨"domcontentloaded", 15000⟩) ∧
    navigateToUrl (fun _ _ => some "net::ERR_FAILED")
      (fun _ _ => some "net::ERR_FAILED") 4 = false :=
  ⟨⟨by decide, navigation_strategies_and_failure.2.2.2.1 5 (by decide)⟩,
   navigation_strategies_and_failure.2.2.2.2
     (fun _ _ => some "net::ERR_FAILED") (fun _ _ => some "net::ERR_FAILED") 4
     (fun _ _ h => Option.noConfusion h) (fun _ _ h => Option.noConfusion h)⟩

section RateLimitLemmas

/-- After `n + 1` same-window requests from an empty store, the store
holds the window counter at `n + 1` with its 3600-second expiry. -/
theorem applyRequests_succ (u : String) (tier : Tier) (now : ℕ) :
    ∀ n, applyRequests u tier now (n + 1) =
      RedisState.up [(rateKey u now, n + 1)] [(rateKey u now, 3600)] := by
  intro n
  induction n with
  | zero => rfl
  | succ m ih =>
    show (checkRateLimit (applyRequests u tier now (m + 1)) u tier now).2 = _
    rw [ih]
    unfold checkRateLimit
    simp [assocGetD, mapSet]

/-- The `n`-th same-window request is allowed exactly when `n` is within
the tier limit. -/
theorem nthResult_success (u : String) (tier : Tier) (now : ℕ) :
    ∀ n, 1 ≤ n →
      (nthResult u tier now n).success = decide (n ≤ RATE_LIMITS tier) := by
  intro n hn
  match n, hn with
  | 1, _ => rfl
  | m + 2, _ =>
    show (checkRateLimit (applyRequests u tier now (m + 1)) u tier now).1.success = _
    rw [applyRequests_succ]
    unfold checkRateLimit
    simp [assocGetD]

end RateLimitLemmas

/-- C7: within one window, requests 1 through `limit` are all allowed,
request `limit + 1` is denied, and when the backing store is down every
request is allowed with the full remaining quota reported. -/
theorem rate_limit_within_and_over (u : String) (tier : Tier) (now : ℕ)
    (n : ℕ) (hn : 1 ≤ n) :
    ((n ≤ RATE_LIMITS tier → (nthResult u tier now n).success = true) ∧
     (n = RATE_LIMITS tier + 1 → (nthResult u tier now n).success = false)) ∧
    checkRateLimit RedisState.down u tier now =
      ({ success := true, limit := RATE_LIMITS tier,
         remaining := RATE_LIMITS tier,
         reset := (now : ℤ) + 3600000 }, RedisState.down) := by
  refine ⟨⟨?_, ?_⟩, rfl⟩
  · intro hle
    rw [nthResult_success u tier now n hn]
    simpa using hle
  · intro heq
    rw [nthResult_success u tier now n hn, heq, decide_eq_false_iff_not]
    omega

/-- Witness for C7 at the first request of the free tier, with the
fail-open clause evaluated. -/
theorem rate_limit_witness :
    1 ≤ 1 ∧
    (((1 ≤ RATE_LIMITS Tier.free →
        (nthResult "u" Tier.free 1700000000000 1).success = true) ∧
      (1 = RATE_LIMITS Tier.free + 1 →
        (nthResult "u" Tier.free 1700000000000 1).success = false)) ∧
     checkRateLimit RedisState.down "u" Tier.free 1700000000000 =
       ({ success := true, limit := RATE_LIMITS Tier.free,
          remaining := RATE_LIMITS Tier.free,
          reset := (1700000000000 : ℤ) + 3600000 }, RedisState.down)) :=
  ⟨le_refl 1, rate_limit_within_and_over "u" Tier.free 1700000000000 1 (le_refl 1)⟩

/-- C8: the code contradicts its own "per hour" comment.  The timestamps
1700000000000 and 1700000100000 lie in the same hour-aligned bucket, yet
dropping the last five decimal digits gives them different window keys
(the buckets actually span 100000 ms = 100 s); and the first request of a
window sets a 3600-second expiry, 36 times the actual bucket length. -/
theorem rate_window_not_hourly :
    1700000000000 / 3600000 = (1700000100000 : ℕ) / 3600000 ∧
    bucketOf 1700000000000 ≠ bucketOf 1700000100000 ∧
    (checkRateLimit (RedisState.up [] []) "u" Tier.free 1700000000000).2 =
      RedisState.up [("ratelimit:u:17000000", 1)]
        [("ratelimit:u:17000000", 3600)] := by
  refine ⟨by decide, by decide, by decide⟩

end NailSpa
